import Mathlib

/-!
Verification of the member-retention webhook pipeline and churn scorer.

The member state store is the `public.members` table (schema in
docs/webhooks/WEBHOOK_IMPLEMENTATION.md: status TEXT NOT NULL DEFAULT
'invalid', last_valid_at TIMESTAMPTZ nullable, renewal_count INT NOT NULL
DEFAULT 0, created_at TIMESTAMPTZ DEFAULT now(), unique on
(experience_id, user_id)).  The store collaborator exposes get and an
idempotent upsert keyed on (experience_id, user_id) with last-write-wins
on provided fields: omitted fields are left unchanged on an existing row
and defaulted on a new one.
-/

/-- A row of `public.members`.  Timestamps are kept as opaque strings
(ISO 8601 in the code); `last_valid_at` is nullable. -/
structure MemberRow where
  id : String
  experience_id : String
  user_id : String
  status : String
  last_valid_at : Option String
  renewal_count : Nat
  created_at : String
deriving DecidableEq

/-- The partial field set carried by one upsert payload: `none` models an
omitted column (left unchanged on an existing row, defaulted on insert). -/
structure UpsertFields where
  status : Option String
  last_valid_at : Option String
  renewal_count : Option Nat
deriving DecidableEq

/-- get(experience_id, user_id): the unique row for the composite key. -/
def getMember (s : List MemberRow) (eid uid : String) : Option MemberRow :=
  s.find? fun r => r.experience_id == eid && r.user_id == uid

/-- Update an existing row with the provided fields only (last-write-wins
on provided columns; `id` and `created_at` are never in a payload). -/
def applyFields (f : UpsertFields) (r : MemberRow) : MemberRow :=
  { r with
    status := f.status.getD r.status
    last_valid_at := match f.last_valid_at with
      | some t => some t
      | none => r.last_valid_at
    renewal_count := f.renewal_count.getD r.renewal_count }

/-- A freshly inserted row: provided fields, column defaults otherwise
(status 'invalid', renewal_count 0, last_valid_at NULL); `id` and
`created_at` are generated by the database, passed in here as `genId`
and `genCreated`. -/
def newRow (genId genCreated eid uid : String) (f : UpsertFields) : MemberRow :=
  { id := genId
    experience_id := eid
    user_id := uid
    status := f.status.getD "invalid"
    last_valid_at := f.last_valid_at
    renewal_count := f.renewal_count.getD 0
    created_at := genCreated }

/-- upsert with onConflict (experience_id, user_id): update the unique
conflicting row in place, or insert a fresh row. -/
def upsert (genId genCreated eid uid : String) (f : UpsertFields) :
    List MemberRow → List MemberRow
  | [] => [newRow genId genCreated eid uid f]
  | r :: rest =>
    if r.experience_id == eid && r.user_id == uid then
      applyFields f r :: rest
    else
      r :: upsert genId genCreated eid uid f rest

/-- Per-event ambient context: the wall clock (new Date().toISOString())
and the database-generated id / created_at used if an insert happens. -/
structure Ctx where
  now : String
  genId : String
  genCreated : String
deriving DecidableEq

/-- The data object of a Whop webhook event; the handler only reads
user_id and experience_id, either of which may be absent. -/
structure WhopEventData where
  user_id : Option String
  experience_id : Option String
deriving DecidableEq

/-- WhopWebhookEvent: type plus data. -/
structure WhopWebhookEvent where
  type : String
  data : WhopEventData
deriving DecidableEq

/-- handleMembershipValid: upsert status='valid', last_valid_at=now;
renewal_count is NOT in the payload. -/
def handleMembershipValid (c : Ctx) (user_id experience_id : String)
    (s : List MemberRow) : List MemberRow :=
  upsert c.genId c.genCreated experience_id user_id
    { status := some "valid", last_valid_at := some c.now, renewal_count := none } s

/-- handleMembershipInvalid: upsert status='invalid' only; last_valid_at
and renewal_count are not in the payload. -/
def handleMembershipInvalid (c : Ctx) (user_id experience_id : String)
    (s : List MemberRow) : List MemberRow :=
  upsert c.genId c.genCreated experience_id user_id
    { status := some "invalid", last_valid_at := none, renewal_count := none } s

/-- handlePaymentSuccess: fetch the current renewal_count for the key
(existing?.renewal_count || 0), then upsert status='valid',
last_valid_at=now, renewal_count=current+1. -/
def handlePaymentSuccess (c : Ctx) (user_id experience_id : String)
    (s : List MemberRow) : List MemberRow :=
  let currentRenewalCount :=
    ((getMember s experience_id user_id).map (·.renewal_count)).getD 0
  upsert c.genId c.genCreated experience_id user_id
    { status := some "valid", last_valid_at := some c.now,
      renewal_count := some (currentRenewalCount + 1) } s

/-- processWebhookEvent: the guard !user_id || !experience_id drops the
event when either id is missing OR the empty string (both are falsy in
JS); otherwise dispatch on the event type, accepting both historical
spellings of each kind; unknown types are logged and ignored. -/
def processWebhookEvent (c : Ctx) (event : WhopWebhookEvent)
    (s : List MemberRow) : List MemberRow :=
  match event.data.user_id, event.data.experience_id with
  | some user_id, some experience_id =>
    if user_id == "" || experience_id == "" then s
    else
      match event.type with
      | "membership.went_valid" | "membership.went.valid" =>
        handleMembershipValid c user_id experience_id s
      | "membership.went_invalid" | "membership.went.invalid" =>
        handleMembershipInvalid c user_id experience_id s
      | "payment.succeeded" | "payment.success" =>
        handlePaymentSuccess c user_id experience_id s
      | _ => s
  | _, _ => s

/-- One delivered event together with its ambient context. -/
structure Arrival where
  ctx : Ctx
  event : WhopWebhookEvent
deriving DecidableEq

/-- Sequential processing of a list of arrivals. -/
def processAll (l : List Arrival) (s : List MemberRow) : List MemberRow :=
  l.foldl (fun st a => processWebhookEvent a.ctx a.event st) s

/-- The renewal_count stored for a key, defaulting to 0 when the record
does not exist (existing?.renewal_count || 0). -/
def renewalCountAt (s : List MemberRow) (eid uid : String) : Nat :=
  ((getMember s eid uid).map (·.renewal_count)).getD 0

/-- Whether an arrival is a payment-succeeded event (either spelling)
addressed at the given (experience_id, user_id) key that actually reaches
the transition step: both ids present and non-empty, mirroring the
falsiness guard that drops events before dispatch (a dropped event is
never processed). -/
def isPaymentFor (eid uid : String) (a : Arrival) : Bool :=
  (a.event.type == "payment.succeeded" || a.event.type == "payment.success")
    && a.event.data.user_id == some uid
    && a.event.data.experience_id == some eid
    && !(uid == "") && !(eid == "")

/-! ### Store lemmas -/

theorem applyFields_experience_id (f : UpsertFields) (r : MemberRow) :
    (applyFields f r).experience_id = r.experience_id := rfl

theorem applyFields_user_id (f : UpsertFields) (r : MemberRow) :
    (applyFields f r).user_id = r.user_id := rfl

theorem getMember_upsert_self (gI gC eid uid : String) (f : UpsertFields)
    (s : List MemberRow) :
    getMember (upsert gI gC eid uid f s) eid uid =
      some (match getMember s eid uid with
        | some r => applyFields f r
        | none => newRow gI gC eid uid f) := by
  induction s with
  | nil =>
    simp [upsert, getMember, List.find?, newRow]
  | cons r rest ih =>
    by_cases h : (r.experience_id == eid && r.user_id == uid) = true
    · have h' : ((applyFields f r).experience_id == eid
          && (applyFields f r).user_id == uid) = true := by
        rw [applyFields_experience_id, applyFields_user_id]; exact h
      simp [upsert, getMember, List.find?, h, h']
    · have hb : (r.experience_id == eid && r.user_id == uid) = false := by
        simpa using h
      simp only [upsert, hb, if_false, Bool.false_eq_true]
      simp only [getMember, List.find?, hb] at ih ⊢
      exact ih

theorem getMember_upsert_other (gI gC eid uid eid' uid' : String)
    (f : UpsertFields) (s : List MemberRow)
    (h : ¬(eid' = eid ∧ uid' = uid)) :
    getMember (upsert gI gC eid uid f s) eid' uid' = getMember s eid' uid' := by
  induction s with
  | nil =>
    have hp : ((newRow gI gC eid uid f).experience_id == eid'
        && (newRow gI gC eid uid f).user_id == uid') = false := by
      simp only [newRow]
      by_cases h1 : eid = eid'
      · by_cases h2 : uid = uid'
        · exact absurd ⟨h1.symm, h2.symm⟩ h
        · simp [h2]
      · simp [h1]
    simp [upsert, getMember, List.find?, hp]
  | cons r rest ih =>
    by_cases hk : (r.experience_id == eid && r.user_id == uid) = true
    · have hcur : (r.experience_id == eid' && r.user_id == uid') = false := by
        rcases Bool.and_eq_true _ _ |>.mp hk with ⟨h1, h2⟩
        have he : r.experience_id = eid := by simpa using h1
        have hu : r.user_id = uid := by simpa using h2
        rw [he, hu]
        by_cases h1' : eid' = eid
        · by_cases h2' : uid' = uid
          · exact absurd ⟨h1', h2'⟩ h
          · have hne : ¬uid = uid' := by
              intro hh
              exact h2' hh.symm
            have hz : (uid == uid') = false := by
              simp only [Bool.eq_false_iff, ne_eq, beq_iff_eq]
              exact hne
            simp [hz]
        · have hne : ¬eid = eid' := by
            intro hh
            exact h1' hh.symm
          have hz : (eid == eid') = false := by
            simp only [Bool.eq_false_iff, ne_eq, beq_iff_eq]
            exact hne
          simp [hz]
      have hcur' : ((applyFields f r).experience_id == eid'
          && (applyFields f r).user_id == uid') = false := by
        rw [applyFields_experience_id, applyFields_user_id]; exact hcur
      simp [upsert, getMember, List.find?, hk, hcur, hcur']
    · have hb : (r.experience_id == eid && r.user_id == uid) = false := by
        simpa using hk
      simp only [upsert, hb, if_false, Bool.false_eq_true]
      simp only [getMember, List.find?] at ih ⊢
      rw [ih]

theorem renewalCountAt_upsert_other (gI gC x u eid uid : String)
    (f : UpsertFields) (s : List MemberRow) (h : ¬(eid = x ∧ uid = u)) :
    renewalCountAt (upsert gI gC x u f s) eid uid = renewalCountAt s eid uid := by
  simp only [renewalCountAt, getMember_upsert_other gI gC x u eid uid f s h]

theorem renewalCountAt_handleMembershipValid_self (c : Ctx) (u x : String)
    (s : List MemberRow) :
    renewalCountAt (handleMembershipValid c u x s) x u = renewalCountAt s x u := by
  simp only [handleMembershipValid, renewalCountAt, getMember_upsert_self]
  cases hg : getMember s x u <;> simp [hg, applyFields, newRow]

theorem renewalCountAt_handleMembershipInvalid_self (c : Ctx) (u x : String)
    (s : List MemberRow) :
    renewalCountAt (handleMembershipInvalid c u x s) x u = renewalCountAt s x u := by
  simp only [handleMembershipInvalid, renewalCountAt, getMember_upsert_self]
  cases hg : getMember s x u <;> simp [hg, applyFields, newRow]

theorem renewalCountAt_handlePaymentSuccess_self (c : Ctx) (u x : String)
    (s : List MemberRow) :
    renewalCountAt (handlePaymentSuccess c u x s) x u = renewalCountAt s x u + 1 := by
  simp only [handlePaymentSuccess, renewalCountAt, getMember_upsert_self]
  cases hg : getMember s x u <;> simp [hg, applyFields, newRow, renewalCountAt]

theorem renewalCountAt_step (c : Ctx) (e : WhopWebhookEvent)
    (s : List MemberRow) (eid uid : String) :
    renewalCountAt (processWebhookEvent c e s) eid uid =
      renewalCountAt s eid uid
        + (if isPaymentFor eid uid { ctx := c, event := e } then 1 else 0) := by
  obtain ⟨t, du, dx⟩ := e
  match du, dx with
  | none, none => simp [processWebhookEvent, isPaymentFor]
  | none, some x => simp [processWebhookEvent, isPaymentFor]
  | some u, none => simp [processWebhookEvent, isPaymentFor]
  | some u, some x =>
    by_cases hemp : (u == "" || x == "") = true
    · have hfalse : isPaymentFor eid uid
          { ctx := c, event := ⟨t, some u, some x⟩ } = false := by
        by_cases hu : u = uid
        · by_cases hx : x = eid
          · subst hu
            subst hx
            simp only [isPaymentFor]
            rcases Bool.or_eq_true _ _ |>.mp hemp with h | h
            · simp [h]
            · simp [h]
          · have hz : (some x == some eid) = false := by
              simp only [beq_eq_false_iff_ne, ne_eq, Option.some.injEq]
              exact hx
            simp [isPaymentFor, hz]
        · have hz : (some u == some uid) = false := by
            simp only [beq_eq_false_iff_ne, ne_eq, Option.some.injEq]
            exact hu
          simp [isPaymentFor, hz]
      rw [hfalse]
      simp [processWebhookEvent, hemp]
    · have hef : (u == "" || x == "") = false := by
        simpa using hemp
      have hu0 : (u == "") = false := (Bool.or_eq_false_iff.mp hef).1
      have hx0 : (x == "") = false := (Bool.or_eq_false_iff.mp hef).2
      by_cases hkey : eid = x ∧ uid = u
      · obtain ⟨he, hku⟩ := hkey
        subst he
        subst hku
        simp only [processWebhookEvent, hef, Bool.false_eq_true, if_false]
        split
        · simp [isPaymentFor, renewalCountAt_handleMembershipValid_self, hu0, hx0]
        · simp [isPaymentFor, renewalCountAt_handleMembershipValid_self, hu0, hx0]
        · simp [isPaymentFor, renewalCountAt_handleMembershipInvalid_self, hu0, hx0]
        · simp [isPaymentFor, renewalCountAt_handleMembershipInvalid_self, hu0, hx0]
        · simp [isPaymentFor, renewalCountAt_handlePaymentSuccess_self, hu0, hx0]
        · simp [isPaymentFor, renewalCountAt_handlePaymentSuccess_self, hu0, hx0]
        · simp_all [isPaymentFor]
      · have hfalse : isPaymentFor eid uid
            { ctx := c, event := ⟨t, some u, some x⟩ } = false := by
          by_cases hx : x = eid
          · have hu : ¬uid = u := by
              intro hh
              exact hkey ⟨hx.symm, hh⟩
            have hz : (some u == some uid) = false := by
              simp only [beq_eq_false_iff_ne, ne_eq, Option.some.injEq]
              intro hh
              exact hu hh.symm
            simp [isPaymentFor, hz]
          · have hz : (some x == some eid) = false := by
              simp only [beq_eq_false_iff_ne, ne_eq, Option.some.injEq]
              exact hx
            simp [isPaymentFor, hz]
        rw [hfalse]
        simp only [Bool.false_eq_true, if_false, Nat.add_zero]
        simp only [processWebhookEvent, hef, Bool.false_eq_true, if_false]
        split
        · rw [handleMembershipValid, renewalCountAt_upsert_other _ _ _ _ _ _ _ _ hkey]
        · rw [handleMembershipValid, renewalCountAt_upsert_other _ _ _ _ _ _ _ _ hkey]
        · rw [handleMembershipInvalid, renewalCountAt_upsert_other _ _ _ _ _ _ _ _ hkey]
        · rw [handleMembershipInvalid, renewalCountAt_upsert_other _ _ _ _ _ _ _ _ hkey]
        · rw [handlePaymentSuccess]
          exact renewalCountAt_upsert_other _ _ _ _ _ _ _ _ hkey
        · rw [handlePaymentSuccess]
          exact renewalCountAt_upsert_other _ _ _ _ _ _ _ _ hkey
        · rfl

theorem renewalCountAt_processAll (l : List Arrival) (s : List MemberRow)
    (eid uid : String) :
    renewalCountAt (processAll l s) eid uid =
      renewalCountAt s eid uid + l.countP (isPaymentFor eid uid) := by
  induction l generalizing s with
  | nil => simp [processAll]
  | cons a rest ih =>
    obtain ⟨ac, ae⟩ := a
    show renewalCountAt (processAll rest (processWebhookEvent ac ae s)) eid uid = _
    rw [ih, renewalCountAt_step]
    rw [List.countP_cons]
    by_cases hp : isPaymentFor eid uid { ctx := ac, event := ae } = true
    · simp [hp]
      omega
    · have hf : isPaymentFor eid uid { ctx := ac, event := ae } = false := by
        simpa using hp
      simp [hf]

/-- C2: For every sequence of events for one member processed sequentially,
the member's renewal_count after processing (starting from an empty store)
equals exactly the number of payment-succeeded events processed for that
member — an event with a missing or empty (falsy) user_id or experience_id
is dropped before the transition step and so is never processed —
regardless of how many membership-went-valid, membership-went-invalid,
or unknown events interleave; and handlePaymentSuccess reads the current
renewal_count (defaulting to 0 when the record does not yet exist) and
upserts current + 1. -/
theorem C2_renewal_count_equals_payment_events (l : List Arrival)
    (eid uid : String) :
    renewalCountAt (processAll l []) eid uid = l.countP (isPaymentFor eid uid)
    ∧ ∀ (c : Ctx) (u x : String) (s : List MemberRow),
        handlePaymentSuccess c u x s =
          upsert c.genId c.genCreated x u
            { status := some "valid", last_valid_at := some c.now,
              renewal_count := some (renewalCountAt s x u + 1) } s := by
  constructor
  · have h := renewalCountAt_processAll l [] eid uid
    simpa [renewalCountAt, getMember] using h
  · intro c u x s
    rfl

/-- C6: Processing a membership-went-invalid event for a member with an
existing record sets that member's status to invalid and leaves
last_valid_at, renewal_count, id and created_at unchanged; every other
key of the store is also left unchanged. -/
theorem C6_membership_invalid_frame (c : Ctx) (uid eid : String)
    (s : List MemberRow) (r : MemberRow)
    (h : getMember s eid uid = some r) :
    getMember (handleMembershipInvalid c uid eid s) eid uid
      = some { r with status := "invalid" }
    ∧ ∀ eid' uid', ¬(eid' = eid ∧ uid' = uid) →
        getMember (handleMembershipInvalid c uid eid s) eid' uid'
          = getMember s eid' uid' := by
  constructor
  · rw [handleMembershipInvalid, getMember_upsert_self, h]
    rfl
  · intro eid' uid' hne
    exact getMember_upsert_other _ _ _ _ _ _ _ _ hne

/-- The closed set of recognized event type spellings. -/
def knownEventTypes : List String :=
  ["membership.went_valid", "membership.went.valid",
   "membership.went_invalid", "membership.went.invalid",
   "payment.succeeded", "payment.success"]

/-- C7: For each canonical event kind the two historical spellings are
synonyms (same effect on the member store for identical data), and any
event whose type is outside the closed set of six spellings produces no
state change at all. -/
theorem C7_spelling_synonyms_and_unknown_noop (c : Ctx) (d : WhopEventData)
    (s : List MemberRow) :
    processWebhookEvent c ⟨"membership.went_valid", d⟩ s
      = processWebhookEvent c ⟨"membership.went.valid", d⟩ s
    ∧ processWebhookEvent c ⟨"membership.went_invalid", d⟩ s
      = processWebhookEvent c ⟨"membership.went.invalid", d⟩ s
    ∧ processWebhookEvent c ⟨"payment.succeeded", d⟩ s
      = processWebhookEvent c ⟨"payment.success", d⟩ s
    ∧ ∀ t, t ∉ knownEventTypes → processWebhookEvent c ⟨t, d⟩ s = s := by
  obtain ⟨du, dx⟩ := d
  refine ⟨?_, ?_, ?_, ?_⟩
  · cases du <;> cases dx <;> simp [processWebhookEvent]
  · cases du <;> cases dx <;> simp [processWebhookEvent]
  · cases du <;> cases dx <;> simp [processWebhookEvent]
  · intro t ht
    cases du <;> cases dx <;> try rfl
    rename_i u x
    simp only [processWebhookEvent]
    by_cases hemp : (u == "" || x == "") = true
    · simp [hemp]
    · have hef : (u == "" || x == "") = false := by
        simpa using hemp
      simp only [hef, Bool.false_eq_true, if_false]
      split <;> simp_all [knownEventTypes]

/-! ### Signature verification and the webhook POST handler

The HMAC-SHA256 hex digest (crypto.createHmac) is an external primitive;
it enters the embedding as an explicit function argument
`hmacSha256Hex : secret -> payload -> hex digest`. -/

/-- The comparison the verifier performs between the claimed signature and
the expected digest: JavaScript string equality (===). -/
def sigCompare (sig expected : String) : Bool :=
  sig == expected

/-- verifyWebhookSignature: false when the signature header is absent or
empty (JS falsiness of null and ""), otherwise compare the claimed
signature with the hex HMAC-SHA256 digest of the raw payload. -/
def verifyWebhookSignature (hmacSha256Hex : String → String → String)
    (payload : String) (signature : Option String) (secret : String) : Bool :=
  match signature with
  | none => false
  | some sig =>
    if sig = "" then false
    else sigCompare sig (hmacSha256Hex secret payload)

/-- An inbound request as the POST handler sees it: the raw body text, the
result of JSON.parse on it (none models a parse exception), and the
x-whop-signature header. -/
structure PostRequest where
  rawBody : String
  parsedBody : Option WhopWebhookEvent
  signature : Option String
deriving DecidableEq

/-- POST: parse the body (a parse exception is caught and acknowledged
with 200 before any signature work), 500 when WHOP_WEBHOOK_SECRET is
unset or empty, 401 on signature failure, otherwise acknowledge with 200
and process the event.  Returns the status code and the resulting store. -/
def POST (hmacSha256Hex : String → String → String)
    (webhookSecret : Option String) (c : Ctx) (req : PostRequest)
    (s : List MemberRow) : Nat × List MemberRow :=
  match req.parsedBody with
  | none => (200, s)
  | some body =>
    match webhookSecret with
    | none => (500, s)
    | some secret =>
      if secret = "" then (500, s)
      else if verifyWebhookSignature hmacSha256Hex req.rawBody req.signature secret then
        (200, processWebhookEvent c body s)
      else
        (401, s)

/-- C4: with the honestly computed digest the verifier accepts; it rejects
(never throwing, being a total function) a missing signature and any
claimed signature different from the digest — in particular any signature
with one byte flipped, and any payload whose digest differs from the
claimed one. -/
theorem C4_verify_signature (hmacSha256Hex : String → String → String)
    (payload secret : String) (hne : hmacSha256Hex secret payload ≠ "") :
    verifyWebhookSignature hmacSha256Hex payload
      (some (hmacSha256Hex secret payload)) secret = true
    ∧ verifyWebhookSignature hmacSha256Hex payload none secret = false
    ∧ ∀ sig, sig ≠ hmacSha256Hex secret payload →
        verifyWebhookSignature hmacSha256Hex payload (some sig) secret = false := by
  refine ⟨?_, rfl, ?_⟩
  · simp [verifyWebhookSignature, sigCompare, hne]
  · intro sig hs
    by_cases h0 : sig = ""
    · simp [verifyWebhookSignature, h0]
    · simp only [verifyWebhookSignature, sigCompare, h0, if_false]
      simp [hs]

/-- Character-comparison count of the short-circuit left-to-right equality
scan implementing sigCompare (JS === on strings): the scan stops at the
first mismatching position, so its cost grows with the length of the
matching prefix.  A constant-time comparison (crypto.timingSafeEqual)
would touch every position regardless of where the first mismatch is. -/
def cmpSteps : List Char → List Char → Nat
  | [], [] => 0
  | [], _ :: _ => 0
  | _ :: _, [] => 0
  | a :: as, b :: bs => if a = b then 1 + cmpSteps as bs else 1

/-- A fixed stand-in digest function for closed instances. -/
def hmacStub : String → String → String := fun _ _ => "abcd"

/-- Concrete ambient context for closed instances. -/
def c0 : Ctx :=
  { now := "2026-01-01T00:00:00.000Z", genId := "gid-1",
    genCreated := "2026-01-01T00:00:00.000Z" }

/-- Concrete event data for closed instances. -/
def d0 : WhopEventData := { user_id := some "u1", experience_id := some "e1" }

/-- Concrete stored row for closed instances. -/
def row0 : MemberRow :=
  { id := "row-1", experience_id := "e1", user_id := "u1", status := "valid",
    last_valid_at := some "2025-12-01T00:00:00.000Z", renewal_count := 3,
    created_at := "2025-01-01T00:00:00.000Z" }

/-- C5: the comparison the verifier performs between the claimed signature
and the expected digest is plain short-circuit string equality, not a
constant-time comparison: two rejected claimed signatures of equal length
take a different number of character comparisons against the same expected
digest, the one sharing the longer matching prefix costing more.  This
contradicts the claim (and the in-code comment above the comparison). -/
theorem C5_comparison_not_constant_time :
    verifyWebhookSignature hmacStub "payload" (some "abce") "secret" = false
    ∧ verifyWebhookSignature hmacStub "payload" (some "xbcd") "secret" = false
    ∧ "abce".length = "xbcd".length
    ∧ cmpSteps "abce".data "abcd".data = 4
    ∧ cmpSteps "xbcd".data "abcd".data = 1 := by
  refine ⟨by decide, by decide, by decide, by decide, by decide⟩

/-- C1 counterexample: a request whose body is not valid JSON and whose
signature is missing is acknowledged with 200, not 401: the handler calls
JSON.parse before the signature check and the parse exception is caught by
the catch-all which returns 200.  (The store is still unchanged.) -/
theorem C1_counterexample :
    POST hmacStub (some "secret") c0
      { rawBody := "not json", parsedBody := none, signature := none } []
      = (200, [])
    ∧ (200 : Nat) ≠ 401 := by
  exact ⟨rfl, by decide⟩

/-- C1 amended: for every request whose body parses as JSON, a failed
signature check (missing, malformed or non-matching signature) yields 401
and no store change; for bodies that fail JSON parsing the store is also
unchanged, but the response is 200 rather than 401 because the parse
exception is caught before the signature is examined. -/
theorem C1_unauthorized_no_state_change
    (hmacSha256Hex : String → String → String) (secret : String) (c : Ctx)
    (req : PostRequest) (s : List MemberRow) (hsec : secret ≠ "") :
    (∀ body, req.parsedBody = some body →
      verifyWebhookSignature hmacSha256Hex req.rawBody req.signature secret
        = false →
      POST hmacSha256Hex (some secret) c req s = (401, s))
    ∧ (req.parsedBody = none →
      POST hmacSha256Hex (some secret) c req s = (200, s)) := by
  constructor
  · intro body hb hv
    simp [POST, hb, hsec, hv]
  · intro hb
    simp [POST, hb]

theorem C1_unauthorized_no_state_change_witness :
    POST hmacStub (some "secret") c0
      { rawBody := "{}", parsedBody := some ⟨"payment.succeeded", d0⟩,
        signature := some "bogus" } [] = (401, []) := by
  have h := C1_unauthorized_no_state_change hmacStub "secret" c0
    { rawBody := "{}", parsedBody := some ⟨"payment.succeeded", d0⟩,
      signature := some "bogus" } [] (by decide)
  exact h.1 ⟨"payment.succeeded", d0⟩ rfl (by decide)

theorem C4_verify_signature_witness :
    verifyWebhookSignature hmacStub "p" (some (hmacStub "k" "p")) "k" = true
    ∧ verifyWebhookSignature hmacStub "p" none "k" = false
    ∧ verifyWebhookSignature hmacStub "p" (some "abcx") "k" = false := by
  have h := C4_verify_signature hmacStub "p" "k" (by decide)
  exact ⟨h.1, h.2.1, h.2.2 "abcx" (by decide)⟩

theorem C6_membership_invalid_frame_witness :
    getMember (handleMembershipInvalid c0 "u1" "e1" [row0]) "e1" "u1"
      = some { row0 with status := "invalid" }
    ∧ getMember (handleMembershipInvalid c0 "u1" "e1" [row0]) "e2" "u1"
      = getMember [row0] "e2" "u1" := by
  have h := C6_membership_invalid_frame c0 "u1" "e1" [row0] row0 (by decide)
  exact ⟨h.1, h.2 "e2" "u1" (by decide)⟩

theorem C7_spelling_synonyms_and_unknown_noop_witness :
    processWebhookEvent c0 ⟨"payment.refunded", d0⟩ [] = [] :=
  (C7_spelling_synonyms_and_unknown_noop c0 d0 []).2.2.2 "payment.refunded"
    (by decide)

/-! ### Churn scorer

The TensorFlow model is external: what the code observes of it is either
a loaded model producing a numeric prediction, a ModelLoadError from
getModel, or some other unexpected exception; that observation enters the
embedding as a ModelOutcome argument.  JavaScript numbers reaching the
validator are modelled by JsField: a (finite) numeric value, NaN, or a
value that is not a number at all. -/

/-- A JavaScript value in a proxies field as the validator classifies it:
a finite number, NaN (typeof NaN is still number), or not a number. -/
inductive JsField where
  | num (q : ℚ)
  | nan
  | notNumber
deriving DecidableEq

/-- The ChurnProxies input object. -/
structure RawProxies where
  days_since_last_valid : JsField
  renewal_count : JsField
deriving DecidableEq

/-- The two error classes predictChurn can propagate. -/
inductive ChurnError where
  | invalidInput (msg : String)
  | modelLoad (msg : String)
deriving DecidableEq

/-- typeof x === 'number' (true for NaN as well). -/
def jsIsNumber : JsField → Bool
  | .notNumber => false
  | _ => true

/-- isNaN(x) || x < 0, evaluated on a field already known to be a number. -/
def jsIsNaNOrNeg : JsField → Bool
  | .nan => true
  | .num q => decide (q < 0)
  | .notNumber => false

/-- isValidProxies: the four checks in source order, each throwing an
InvalidInputError with its message. -/
def isValidProxies (p : RawProxies) : Except ChurnError Unit :=
  if !jsIsNumber p.days_since_last_valid then
    .error (.invalidInput "days_since_last_valid must be a number")
  else if !jsIsNumber p.renewal_count then
    .error (.invalidInput "renewal_count must be a number")
  else if jsIsNaNOrNeg p.days_since_last_valid then
    .error (.invalidInput "days_since_last_valid must be a non-negative number")
  else if jsIsNaNOrNeg p.renewal_count then
    .error (.invalidInput "renewal_count must be a non-negative number")
  else
    .ok ()

/-- What the code observes of getModel and the prediction: a loaded model
whose raw output on this input is a rational, a ModelLoadError, or some
other unexpected exception during scoring. -/
inductive ModelOutcome where
  | loaded (prediction : ℚ)
  | loadFailed (msg : String)
  | unexpectedFailure
deriving DecidableEq

/-- DEFAULT_HIGH_RISK_SCORE. -/
def DEFAULT_HIGH_RISK_SCORE : ℤ := 100

/-- predictChurn: validate (an InvalidInputError is re-thrown by the catch
clause), obtain the model (a ModelLoadError is re-thrown), otherwise scale
the raw prediction by 100, round to nearest (Math.round) and clamp to
[0,100]; any other exception is swallowed and DEFAULT_HIGH_RISK_SCORE is
returned. -/
def predictChurn (p : RawProxies) (m : ModelOutcome) : Except ChurnError ℤ :=
  match isValidProxies p with
  | .error e => .error e
  | .ok _ =>
    match m with
    | .loadFailed msg => .error (.modelLoad msg)
    | .unexpectedFailure => .ok DEFAULT_HIGH_RISK_SCORE
    | .loaded prediction =>
      .ok (max 0 (min 100 (round (prediction * 100))))

/-- A valid concrete input for closed instances. -/
def proxies0 : RawProxies :=
  { days_since_last_valid := .num 5, renewal_count := .num 10 }

/-- C3 counterexample: when the model is unavailable (getModel throws
ModelLoadError), predictChurn re-throws the error to its caller instead of
returning the fail-closed maximum of 100, even on a valid input. -/
theorem C3_counterexample :
    predictChurn proxies0 (.loadFailed "Model load timeout")
      = .error (.modelLoad "Model load timeout")
    ∧ predictChurn proxies0 (.loadFailed "Model load timeout")
      ≠ .ok DEFAULT_HIGH_RISK_SCORE := by
  refine ⟨rfl, ?_⟩
  intro hcon
  rw [show predictChurn proxies0 (.loadFailed "Model load timeout")
      = .error (.modelLoad "Model load timeout") from rfl] at hcon
  exact Except.noConfusion hcon

/-- C3 amended: on a valid input, an unexpected failure other than a
ModelLoadError makes predictChurn return the maximum risk score 100, but a
ModelLoadError (model unavailable) and an InvalidInputError are re-thrown
to the caller. -/
theorem C3_fail_closed_amended (p : RawProxies) (msg : String)
    (h : isValidProxies p = .ok ()) :
    predictChurn p .unexpectedFailure = .ok 100
    ∧ predictChurn p (.loadFailed msg) = .error (.modelLoad msg) := by
  constructor
  · simp [predictChurn, h, DEFAULT_HIGH_RISK_SCORE]
  · simp [predictChurn, h]

theorem C3_fail_closed_amended_witness :
    predictChurn proxies0 .unexpectedFailure = .ok 100
    ∧ predictChurn proxies0 (.loadFailed "Model load timeout")
      = .error (.modelLoad "Model load timeout") :=
  C3_fail_closed_amended proxies0 "Model load timeout" rfl

/-- C8: every score predictChurn actually returns is an integer in the
closed interval [0,100] — in particular for every pair of non-negative
finite inputs, the sentinel 999 included, and every model outcome that
produces a value. -/
theorem C8_score_in_bounds (p : RawProxies) (m : ModelOutcome) (n : ℤ)
    (h : predictChurn p m = .ok n) : 0 ≤ n ∧ n ≤ 100 := by
  unfold predictChurn at h
  cases hv : isValidProxies p with
  | error e => rw [hv] at h; exact absurd h (by simp)
  | ok u =>
    rw [hv] at h
    cases m with
    | loadFailed msg => exact absurd h (by simp)
    | unexpectedFailure =>
      simp only [Except.ok.injEq] at h
      subst h
      exact ⟨by decide, by decide⟩
    | loaded prediction =>
      simp only [Except.ok.injEq] at h
      subst h
      constructor
      · exact le_max_left 0 _
      · exact max_le (by decide) (min_le_left 100 _)

theorem C8_score_in_bounds_witness :
    predictChurn proxies0 (.loaded (31/50)) = .ok 62
    ∧ (0 : ℤ) ≤ 62 ∧ (62 : ℤ) ≤ 100 := by
  have hval : isValidProxies proxies0 = .ok () := rfl
  have heval : predictChurn proxies0 (.loaded (31/50)) = .ok 62 := by
    simp only [predictChurn, hval]
    norm_num [round_eq]
  exact ⟨heval, C8_score_in_bounds proxies0 (.loaded (31/50)) 62 heval⟩

/-- Whether a field value is one the validator rejects: not a number, NaN,
or a negative number. -/
def isInvalidField : JsField → Bool
  | .num q => decide (q < 0)
  | .nan => true
  | .notNumber => true

/-- Whether a predictChurn result is a thrown InvalidInputError. -/
def isInvalidInputResult : Except ChurnError ℤ → Bool
  | .error (.invalidInput _) => true
  | _ => false

/-- C9: whenever either input field is negative, NaN, or not a number,
predictChurn throws an InvalidInputError — for every model outcome — and
in particular does not return any score, not even the fail-closed 100. -/
theorem C9_invalid_input_throws (p : RawProxies) (m : ModelOutcome)
    (h : isInvalidField p.days_since_last_valid = true
      ∨ isInvalidField p.renewal_count = true) :
    isInvalidInputResult (predictChurn p m) = true := by
  obtain ⟨d, r⟩ := p
  cases d with
  | notNumber =>
    simp [predictChurn, isValidProxies, jsIsNumber, isInvalidInputResult]
  | nan =>
    cases r <;>
      simp [predictChurn, isValidProxies, jsIsNumber, jsIsNaNOrNeg,
        isInvalidInputResult]
  | num q =>
    cases r with
    | notNumber =>
      simp [predictChurn, isValidProxies, jsIsNumber, isInvalidInputResult]
    | nan =>
      by_cases hq : q < 0 <;>
        simp [predictChurn, isValidProxies, jsIsNumber, jsIsNaNOrNeg, hq,
          isInvalidInputResult]
    | num q' =>
      simp only [isInvalidField, decide_eq_true_eq] at h
      rcases h with h | h
      · simp [predictChurn, isValidProxies, jsIsNumber, jsIsNaNOrNeg, h,
          isInvalidInputResult]
      · by_cases hq : q < 0 <;>
          simp [predictChurn, isValidProxies, jsIsNumber, jsIsNaNOrNeg, hq, h,
            isInvalidInputResult]

theorem C9_invalid_input_throws_witness :
    isInvalidInputResult (predictChurn
      { days_since_last_valid := JsField.num (-1), renewal_count := JsField.num 2 }
      (.loaded (1/2))) = true :=
  C9_invalid_input_throws
    { days_since_last_valid := JsField.num (-1), renewal_count := JsField.num 2 }
    (.loaded (1/2)) (Or.inl (by decide))

/-! ### Batch scoring endpoint -/

/-- The row shape the batch endpoint selects (id, last_valid_at,
renewal_count) together with the experience_id the query filters on. -/
structure MemberScoreRow where
  id : String
  experience_id : String
  last_valid_at : Option String
  renewal_count : Nat
deriving DecidableEq

/-- The store query of the batch endpoint: rows whose id is among the
requested memberIds and whose experience_id is the caller's experience. -/
def queryMembers (table : List MemberScoreRow) (memberIds : List String)
    (experienceId : String) : List MemberScoreRow :=
  table.filter fun m => memberIds.contains m.id && m.experience_id == experienceId

/-- The prediction loop of the batch endpoint: each fetched member is
scored; a per-member scoring failure is caught and yields the fail-closed
100 for that member only.  `score` abstracts the predictChurn call on the
member's derived features. -/
def batchPredict (score : MemberScoreRow → Except ChurnError ℤ)
    (table : List MemberScoreRow) (memberIds : List String)
    (experienceId : String) : List (String × ℤ) :=
  (queryMembers table memberIds experienceId).map fun m =>
    (m.id,
      match score m with
      | .ok n => n
      | .error _ => 100)

/-- C10: a requested member id with no row in the requested scope is
silently omitted from the returned mapping — it gets neither a score nor
the fail-closed 100 — and its absence does not abort the rest: every
requested member that does have a row in scope appears in the mapping. -/
theorem C10_missing_member_omitted
    (score : MemberScoreRow → Except ChurnError ℤ)
    (table : List MemberScoreRow) (memberIds : List String)
    (experienceId reqId : String)
    (hreq : reqId ∈ memberIds)
    (habs : ∀ m ∈ table, ¬(m.id = reqId ∧ m.experience_id = experienceId)) :
    reqId ∉ (batchPredict score table memberIds experienceId).map Prod.fst
    ∧ ∀ m ∈ table, m.id ∈ memberIds → m.experience_id = experienceId →
        m.id ∈ (batchPredict score table memberIds experienceId).map Prod.fst := by
  constructor
  · intro hmem
    simp only [batchPredict, List.map_map, List.mem_map, Function.comp] at hmem
    obtain ⟨m, hm, hid⟩ := hmem
    simp only [queryMembers, List.mem_filter, Bool.and_eq_true, beq_iff_eq] at hm
    obtain ⟨hmt, _, hexp⟩ := hm
    exact habs m hmt ⟨hid, hexp⟩
  · intro m hmt hin hexp
    simp only [batchPredict, List.map_map, List.mem_map, Function.comp]
    refine ⟨m, ?_, rfl⟩
    simp only [queryMembers, List.mem_filter, Bool.and_eq_true, beq_iff_eq]
    refine ⟨hmt, ?_, hexp⟩
    simpa [List.elem_iff] using hin

/-- A fixed per-member scoring outcome for closed instances. -/
def scoreStub : MemberScoreRow → Except ChurnError ℤ := fun _ => .ok 7

/-- A concrete stored row for the batch endpoint's closed instances. -/
def srow0 : MemberScoreRow :=
  { id := "m1", experience_id := "e1", last_valid_at := none,
    renewal_count := 0 }

/-- A one-row table for closed instances. -/
def table0 : List MemberScoreRow := [srow0]

theorem C10_missing_member_omitted_witness :
    "m2" ∉ (batchPredict scoreStub table0 ["m1", "m2"] "e1").map Prod.fst
    ∧ srow0.id ∈ (batchPredict scoreStub table0 ["m1", "m2"] "e1").map Prod.fst := by
  have h := C10_missing_member_omitted scoreStub table0 ["m1", "m2"] "e1" "m2"
    (by decide) (by decide)
  exact ⟨h.1, h.2 srow0 (by decide) (by decide) rfl⟩
